import Mathlib

/-!
Verification development for the atspro backend (src/main.py).

The Python source is shallowly embedded below.  Strings are modelled through
their character lists (`String.data`); Python integers are `Int`/`Nat`;
the external collaborators (pdfplumber/docx extraction results and the
generative-text service) are modelled by explicit data describing their
observable outcome, since their internals are outside the program.
All definitions are executable and follow the source line by line except
where a doc comment says `Modelled from the spec:`.
-/

/-! ### Character and list utilities (semantics of the Python string methods
used in src/main.py: `str.lower`, `re.sub`, `str.split`, `str.strip`,
substring tests, `str.isupper`). ASCII semantics are used throughout. -/

/-- Python `str.lower` on a single character (ASCII). -/
def lowerChar (c : Char) : Char :=
  if 65 ≤ c.toNat ∧ c.toNat ≤ 90 then Char.ofNat (c.toNat + 32) else c

/-- Character class `[a-z0-9]` of the regex in `normalize_text`. -/
def isAlnumLower (c : Char) : Bool :=
  decide ((97 ≤ c.toNat ∧ c.toNat ≤ 122) ∨ (48 ≤ c.toNat ∧ c.toNat ≤ 57))

/-- Python regex `\s` / `str.split()` whitespace (ASCII): space, TAB, LF, CR, VT, FF. -/
def isPyWs (c : Char) : Bool :=
  decide (c.toNat = 32 ∨ c.toNat = 9 ∨ c.toNat = 10 ∨ c.toNat = 13 ∨
          c.toNat = 11 ∨ c.toNat = 12)

/-- Regex `\d` (ASCII digits). -/
def isPyDigit (c : Char) : Bool := decide (48 ≤ c.toNat ∧ c.toNat ≤ 57)

/-- ASCII cased characters (for Python `str.isupper`). -/
def isAsciiAlpha (c : Char) : Bool :=
  decide ((65 ≤ c.toNat ∧ c.toNat ≤ 90) ∨ (97 ≤ c.toNat ∧ c.toNat ≤ 122))

/-- ASCII lower-case letters. -/
def isLowerAlpha (c : Char) : Bool := decide (97 ≤ c.toNat ∧ c.toNat ≤ 122)

/-- One character of `re.sub(r"[^a-z0-9\s]", " ", t)`: anything outside
`[a-z0-9]` and whitespace becomes a space. -/
def subStep (c : Char) : Char := if isAlnumLower c || isPyWs c then c else ' '

/-- `startsWithL hay needle`: `needle` is a leading run of `hay`
(Python `str.startswith`). -/
def startsWithL : List Char → List Char → Bool
  | _, [] => true
  | [], _ :: _ => false
  | a :: as, b :: bs => a == b && startsWithL as bs

/-- Python substring test `needle in hay` (contiguous occurrence). -/
def hasSubList (needle : List Char) : List Char → Bool
  | [] => startsWithL [] needle
  | c :: t => startsWithL (c :: t) needle || hasSubList needle t

/-- Python `sub in s` on strings. -/
def strContains (s : String) (sub : String) : Bool := hasSubList sub.data s.data

/-- `re.search(r"\d+%|\d{2,}", text)` succeeds iff some digit is immediately
followed by `%` or by another digit. -/
def hasDigitPair : List Char → Bool
  | a :: b :: r => (isPyDigit a && (b == '%' || isPyDigit b)) || hasDigitPair (b :: r)
  | _ => false

/-- `re.search(r"\s{3,}", text)`: three consecutive whitespace characters. -/
def hasWsRun3 : List Char → Bool
  | a :: b :: c :: r => (isPyWs a && isPyWs b && isPyWs c) || hasWsRun3 (b :: c :: r)
  | _ => false

/-- One right-fold step of `pySplitWs`: the head of the accumulator is the
word currently being read (possibly empty), the tail holds the completed
words.  A whitespace character closes the current word (unless it is still
empty); any other character extends it. -/
def addChar (c : Char) (acc : List (List Char)) : List (List Char) :=
  if isPyWs c then
    match acc with
    | [] :: _ => acc
    | _ => [] :: acc
  else
    match acc with
    | w :: rest => (c :: w) :: rest
    | [] => [[c]]

/-- Python `str.split()` with no argument: split on whitespace runs,
dropping empty pieces. -/
def pySplitWs (l : List Char) : List (List Char) :=
  match l.foldr addChar [[]] with
  | [] :: rest => rest
  | r => r

/-- Python `str.strip()`: remove leading and trailing whitespace. -/
def pyStrip (l : List Char) : List Char :=
  ((l.dropWhile isPyWs).reverse.dropWhile isPyWs).reverse

/-- Leading run of non-space characters. -/
def firstWord (l : List Char) : List Char := l.takeWhile (fun c => !(c == ' '))

/-- Join character-list tokens with single spaces. -/
def joinWs : List (List Char) → List Char
  | [] => []
  | [w] => w
  | w :: v :: rest => w ++ ' ' :: joinWs (v :: rest)

/-- Join string tokens with single spaces. -/
def joinTokens (ws : List String) : String := String.mk (joinWs (ws.map String.data))

/-- Order-of-first-occurrence deduplication (Python `dict`/`Counter` key order). -/
def dedupFirstAux (seen : List String) : List String → List String
  | [] => []
  | w :: rest =>
    if seen.contains w then dedupFirstAux seen rest
    else w :: dedupFirstAux (w :: seen) rest

def dedupFirst (l : List String) : List String := dedupFirstAux [] l

/-! ### Taxonomy tables (src/main.py lines 28-69) -/

def STOPWORDS : List String :=
  ["the", "and", "with", "your", "for", "are", "was", "were", "you",
   "but", "this", "that", "from", "have", "has", "had", "his", "her",
   "its", "their", "our", "they", "them", "him", "she", "he", "who",
   "why", "what", "when", "how", "which"]

def HARD_SKILLS : List String :=
  ["python", "java", "c++", "javascript", "react", "node", "sql", "mysql",
   "postgresql", "mongodb", "aws", "docker", "kubernetes", "tensorflow",
   "pytorch", "nlp", "machine learning", "deep learning", "excel",
   "power bi", "tableau", "html", "css", "django", "flask"]

def SOFT_SKILLS : List String :=
  ["teamwork", "communication", "leadership", "problem solving",
   "critical thinking", "adaptability", "creativity", "time management"]

def JOB_TITLES : List String :=
  ["software engineer", "developer", "data analyst",
   "data scientist", "web developer", "backend developer",
   "frontend developer", "machine learning engineer"]

def ACTION_VERBS : List String :=
  ["built", "created", "developed", "managed", "led", "optimized",
   "designed", "launched", "improved", "implemented", "reduced",
   "increased", "analyzed", "solved", "configured", "directed",
   "automated", "maintained", "trained", "organized"]

def WEAK_PHRASES : List String :=
  ["responsible for", "helped with", "worked on", "assisted with",
   "participated in", "involved in"]

def PASSIVE_VERBS : List String := ["was", "were", "is", "are", "been", "be", "being"]

/-! ### Normalizer (src/main.py lines 189-202, `normalize_text`) -/

/-- The filter of the comprehension in `normalize_text`:
`w not in STOPWORDS and len(w) > 2`. -/
def normKeep (w : String) : Bool := !STOPWORDS.contains w && decide (2 < w.length)

/-- `normalize_text` from src/main.py: lower-case, replace every character
outside `[a-z0-9\s]` by a space, split on whitespace, drop stop-words and
tokens of length ≤ 2. -/
def normalize_text (t : String) : List String :=
  ((pySplitWs ((t.data.map lowerChar).map subStep)).map String.mk).filter normKeep

/-! ### Keyword engine (src/main.py lines 317-340, inside `upload_resume`) -/

/-- `set(resume_words)` of `upload_resume`, as a duplicate-free list. -/
def resumeSetOf (t : String) : List String := (normalize_text t).dedup

/-- `set(job_words)` of `upload_resume`, as a duplicate-free list. -/
def jobSetOf (jd : String) : List String := (normalize_text jd).dedup

/-- The `for word in job_set` loop of `upload_resume` (lines 326-338):
taxonomy-weighted score accumulation plus the `matched_keywords` list. -/
def keywordLoop (resumeSet : List String) : List String → Nat × List String
  | [] => (0, [])
  | w :: rest =>
    let r := keywordLoop resumeSet rest
    if HARD_SKILLS.contains w && resumeSet.contains w then (r.1 + 4, w :: r.2)
    else if SOFT_SKILLS.contains w && resumeSet.contains w then (r.1 + 2, w :: r.2)
    else if JOB_TITLES.contains w && resumeSet.contains w then (r.1 + 3, w :: r.2)
    else if resumeSet.contains w then (r.1 + 1, w :: r.2)
    else r

/-- Keyword score and matched keywords of `upload_resume`, including the
cap `keyword_score = min(keyword_score, 50)` (line 340). -/
def keywordMatch (jobSet resumeSet : List String) : Nat × List String :=
  ((keywordLoop resumeSet jobSet).1.min 50, (keywordLoop resumeSet jobSet).2)

/-- Per-token weight as the specification describes it:
hard-skill 4, job-title 3, soft-skill 2, generic 1. -/
def specWeight (w : String) : Nat :=
  if HARD_SKILLS.contains w then 4
  else if JOB_TITLES.contains w then 3
  else if SOFT_SKILLS.contains w then 2
  else 1

/-! ### Section detection and structure score (src/main.py lines 294-311) -/

/-- `text.lower()` as a character list. -/
def lowerData (t : String) : List Char := t.data.map lowerChar

def sectionSummaryFlag (t : String) : Bool :=
  ["summary", "objective", "profile"].any (fun k => hasSubList k.data (lowerData t))

def sectionSkillsFlag (t : String) : Bool :=
  ["skills", "technical skills"].any (fun k => hasSubList k.data (lowerData t))

def sectionExperienceFlag (t : String) : Bool :=
  ["experience", "work experience", "employment"].any
    (fun k => hasSubList k.data (lowerData t))

def sectionEducationFlag (t : String) : Bool :=
  ["education", "academics", "qualification"].any
    (fun k => hasSubList k.data (lowerData t))

/-- `structure_score` accumulation of `upload_resume` (lines 303-311). -/
def structure_score (t : String) : Int :=
  let s : Int := 0
  let s := if sectionSummaryFlag t then s + 5 else s
  let s := if sectionSkillsFlag t then s + 10 else s
  let s := if sectionExperienceFlag t then s + 10 else s
  let s := if sectionEducationFlag t then s + 5 else s
  s

/-! ### Formatting analyzer (src/main.py lines 107-183, `analyze_formatting`)

The pdfplumber / python-docx structural probes are external collaborators;
they are modelled by their observable outcome (`FileKind`): parse failure,
or the structural facts the code reads off the parsed file. -/

inductive PdfParse where
  | failed
  | parsed (tableFound : Bool) (imageCount : Nat)

inductive DocxParse where
  | failed
  | parsed (numTables numShapes : Nat) (headerFooter : List (Bool × Bool))

/-- Filename extension dispatch plus the collaborator outcome.
`headerFooter` lists, per DOCX section, whether header resp. footer text
is non-empty after stripping. -/
inductive FileKind where
  | pdf (p : PdfParse)
  | docx (d : DocxParse)
  | plain

def shortMsg : String := "Resume text seems too short. ATS may not read it well."
def capsMsg : String := "Too many ALL CAPS lines detected."
def nonAsciiMsg : String := "Non-ASCII characters detected. ATS may not parse them."
def tabMsg : String := "Tabs detected — may indicate multi-column layout."
def spacesMsg : String := "Multiple consecutive spaces detected — avoid manual alignment."
def pdfTableMsg : String := "Tables detected — ATS may fail to read table content."
def pdfImageMsg : String := "Images/icons detected. ATS cannot read images."
def pdfScanMsg : String := "PDF may be scanned or image-based."
def docxTableMsg : String := "Tables detected in DOCX — ATS cannot read tables well."
def docxImageMsg : String := "Images/icons detected in DOCX."
def headerMsg : String := "Header contains text — ATS often ignores header content."
def footerMsg : String := "Footer contains text — ATS often ignores footer content."
def docxFailMsg : String := "DOCX parsing issue."

/-- `len(text) < 200` (line 111). -/
def fmtShort (t : String) : Bool := decide (t.length < 200)

/-- Python `str.isupper`: at least one cased character and no lower-case one. -/
def pyIsUpper (l : List Char) : Bool :=
  l.any isAsciiAlpha && l.all (fun c => !isLowerAlpha c)

/-- `any(line.isupper() and len(line) > 5 for line in text.split("\n"))` (line 115). -/
def fmtCaps (t : String) : Bool :=
  (t.data.splitOn '\n').any (fun l => pyIsUpper l && decide (5 < l.length))

/-- `re.search(r"[^\x00-\x7F]", text)` (line 119). -/
def fmtNonAscii (t : String) : Bool := t.data.any (fun c => decide (127 < c.toNat))

/-- `"\t" in text` (line 123). -/
def fmtTab (t : String) : Bool := t.data.contains '\t'

/-- `re.search(r"\s{3,}", text)` (line 127). -/
def fmtSpaces (t : String) : Bool := hasWsRun3 t.data

/-- `pages = len(text.split("\f"))` (line 131). -/
def pagesOf (t : String) : Nat := (t.data.splitOn (Char.ofNat 12)).length

def fmtPages (t : String) : Bool := decide (2 < pagesOf t)

def pagesMsg (t : String) : String :=
  "Resume is too long (" ++ (toString (pagesOf t) ++ " pages). Keep it under 2 pages.")

/-- DOCX per-section header/footer penalties (lines 168-176). -/
def hfPenalty : List (Bool × Bool) → Int
  | [] => 0
  | (h, f) :: rest => (if h then 2 else 0) + (if f then 2 else 0) + hfPenalty rest

def hfIssues : List (Bool × Bool) → List String
  | [] => []
  | (h, f) :: rest =>
    (if h then [headerMsg] else []) ++ (if f then [footerMsg] else []) ++ hfIssues rest

/-- Penalty of the PDF/DOCX branches of `analyze_formatting` (lines 137-180). -/
def filePenalty : FileKind → Int
  | .pdf .failed => 4
  | .pdf (.parsed tf ic) => (if tf then 4 else 0) + (if 0 < ic then 3 else 0)
  | .docx .failed => 3
  | .docx (.parsed nt ns hf) =>
    (if 0 < nt then 4 else 0) + (if 0 < ns then 3 else 0) + hfPenalty hf
  | .plain => 0

/-- Issues of the PDF/DOCX branches of `analyze_formatting` (lines 137-180). -/
def fileIssues : FileKind → List String
  | .pdf .failed => [pdfScanMsg]
  | .pdf (.parsed tf ic) =>
    (if tf then [pdfTableMsg] else []) ++ (if 0 < ic then [pdfImageMsg] else [])
  | .docx .failed => [docxFailMsg]
  | .docx (.parsed nt ns hf) =>
    (if 0 < nt then [docxTableMsg] else []) ++ (if 0 < ns then [docxImageMsg] else []) ++
      hfIssues hf
  | .plain => []

/-- Sum of all `analyze_formatting` penalties except the ALL-CAPS one. -/
def fmtPenaltyExceptCaps (t : String) (fk : FileKind) : Int :=
  (if fmtShort t then 2 else 0) + (if fmtNonAscii t then 2 else 0) +
  (if fmtTab t then 3 else 0) + (if fmtSpaces t then 2 else 0) +
  (if fmtPages t then 3 else 0) + filePenalty fk

/-- `analyze_formatting` from src/main.py: starts at 20, subtracts the fixed
penalties, appends the corresponding issue for each triggered condition, and
finally clamps with `max(0, min(score, 20))` (line 182). -/
def analyze_formatting (t : String) (fk : FileKind) : Int × List String :=
  (max 0 (min (20 -
      ((if fmtShort t then 2 else 0) + (if fmtCaps t then 1 else 0) +
       (if fmtNonAscii t then 2 else 0) + (if fmtTab t then 3 else 0) +
       (if fmtSpaces t then 2 else 0) + (if fmtPages t then 3 else 0) +
       filePenalty fk)) 20),
   (if fmtShort t then [shortMsg] else []) ++ (if fmtCaps t then [capsMsg] else []) ++
   (if fmtNonAscii t then [nonAsciiMsg] else []) ++ (if fmtTab t then [tabMsg] else []) ++
   (if fmtSpaces t then [spacesMsg] else []) ++ (if fmtPages t then [pagesMsg t] else []) ++
   fileIssues fk)

/-! ### Writing analyzer (src/main.py lines 208-254, `analyze_writing`) -/

def actionMsg : String := "Few action verbs found. Use stronger verbs like Built, Led, Created."
def achMsg : String := "Add measurable achievements (numbers or percentages)."
def passiveMsg : String := "Too much passive voice detected."
def lenMsg : String := "Some bullet points are too long. Keep under 25 words."

/-- `[line.strip() for line in text.split("\n") if line.strip()]` (line 212). -/
def wLines (t : String) : List (List Char) :=
  ((t.data.splitOn '\n').map pyStrip).filter (fun l => !l.isEmpty)

/-- `l.startswith(("-", "•", "*"))` (line 213). -/
def isBulletHead (l : List Char) : Bool :=
  match l with
  | [] => false
  | c :: _ => c == '-' || c == '•' || c == '*'

def wBullets (t : String) : List (List Char) := (wLines t).filter isBulletHead

/-- `text.lower().split()` as strings. -/
def lowerWords (t : String) : List String :=
  (pySplitWs (t.data.map lowerChar)).map String.mk

/-- `sum(1 for word in text.lower().split() if word in ACTION_VERBS)` (line 216). -/
def actionVerbCount (t : String) : Nat :=
  ((lowerWords t).filter (fun w => ACTION_VERBS.contains w)).length

def wFewActions (t : String) : Bool := decide (actionVerbCount t < 5)

/-- `not re.search(r"\d+%|\d{2,}", text)` (line 222). -/
def wNoAchievement (t : String) : Bool := !hasDigitPair t.data

/-- `[p for p in WEAK_PHRASES if p in text.lower()]` (line 227). -/
def weakFound (t : String) : List String :=
  WEAK_PHRASES.filter (fun p => hasSubList p.data (lowerData t))

def wWeak (t : String) : Bool := !(weakFound t).isEmpty

def weakMsgOf (t : String) : String :=
  "Weak phrases detected: " ++ (String.intercalate ", " (weakFound t) ++ ".")

/-- `[w for w in text.lower().split() if len(w) > 3]` (line 233). -/
def longWords (t : String) : List String :=
  (lowerWords t).filter (fun w => decide (3 < w.length))

/-- `[word for word, count in freq.items() if count > 5]` (line 235);
`Counter` iterates keys in first-occurrence order. -/
def repeatedWords (t : String) : List String :=
  (dedupFirst (longWords t)).filter (fun w => decide (5 < (longWords t).count w))

def wRepetition (t : String) : Bool := !(repeatedWords t).isEmpty

def overMsgOf (t : String) : String :=
  "Overused words: " ++ (String.intercalate ", " ((repeatedWords t).take 5) ++ ".")

/-- `sum(1 for w in text.lower().split() if w in PASSIVE_VERBS)` (line 241). -/
def passiveCount (t : String) : Nat :=
  ((lowerWords t).filter (fun w => PASSIVE_VERBS.contains w)).length

def wPassive (t : String) : Bool := decide (10 < passiveCount t)

/-- The bullet-length loop with `break` (lines 247-251): penalty/issue fire
once iff some bullet has more than 25 words. -/
def wLongBullet (t : String) : Bool :=
  (wBullets t).any (fun b => decide (25 < (pySplitWs b).length))

/-- Sum of all `analyze_writing` penalties except the bullet-length one. -/
def wPenaltyExceptLength (t : String) : Int :=
  (if wFewActions t then 4 else 0) + (if wNoAchievement t then 4 else 0) +
  (if wWeak t then 3 else 0) + (if wRepetition t then 3 else 0) +
  (if wPassive t then 3 else 0)

/-- `analyze_writing` from src/main.py: starts at 30, subtracts the fixed
penalties, appends the issues in program order, and finally clamps with
`max(0, min(score, 30))` (line 253). -/
def analyze_writing (t : String) : Int × List String :=
  (max 0 (min (30 -
      ((if wFewActions t then 4 else 0) + (if wNoAchievement t then 4 else 0) +
       (if wWeak t then 3 else 0) + (if wRepetition t then 3 else 0) +
       (if wPassive t then 3 else 0) + (if wLongBullet t then 2 else 0))) 30),
   (if wFewActions t then [actionMsg] else []) ++
   (if wNoAchievement t then [achMsg] else []) ++
   (if wWeak t then [weakMsgOf t] else []) ++
   (if wRepetition t then [overMsgOf t] else []) ++
   (if wPassive t then [passiveMsg] else []) ++
   (if wLongBullet t then [lenMsg] else []))

/-! ### Final ATS score (src/main.py lines 345-347) -/

/-- `ats_score = min(100, structure + formatting + keyword + writing)`. -/
def ats_score (t : String) (fk : FileKind) (jd : String) : Int :=
  min 100 (structure_score t + (analyze_formatting t fk).1 +
    ((keywordMatch (jobSetOf jd) (resumeSetOf t)).1 : Int) + (analyze_writing t).1)

/-! ### Gemini helper (src/main.py lines 260-266, `gemini_generate`) -/

/-- `gemini_generate` from src/main.py.  The external generative call is
modelled by its outcome: `.ok text` when `model.generate_content` returns
a response, `.error e` when it raises an exception with message `e`.
The function is total: the `except` branch turns any fault into the
in-band string `"AI Error: " ++ e`. -/
def gemini_generate (outcome : Except String String) : String :=
  match outcome with
  | .ok t => t
  | .error e => "AI Error: " ++ e

/-! ### SectionSegmenter, modelled from the spec (§4.2)

The repository's rule-based SectionSegmenter is not part of src/main.py
(which only computes boolean section-presence flags); the definitions below
follow spec §4.2 word by word. -/

inductive Bucket where
  | header | summary | skills | experience | education | other
deriving DecidableEq

structure SegResult where
  header : List String
  summary : List String
  skills : List String
  experience : List String
  education : List String
  other : List String

def emptySeg : SegResult := ⟨[], [], [], [], [], []⟩

def appendTo (r : SegResult) (b : Bucket) (l : String) : SegResult :=
  match b with
  | .header => { r with header := r.header ++ [l] }
  | .summary => { r with summary := r.summary ++ [l] }
  | .skills => { r with skills := r.skills ++ [l] }
  | .experience => { r with experience := r.experience ++ [l] }
  | .education => { r with education := r.education ++ [l] }
  | .other => { r with other := r.other ++ [l] }

/-- Modelled from the spec: §4.2 summary/objective marker (case-insensitive
containment test on the line). -/
def isSummaryMarker (l : String) : Bool :=
  ["summary", "objective"].any (fun k => hasSubList k.data (lowerData l))

/-- Modelled from the spec: §4.2 skills marker; the header line must
additionally be short, "under a fixed character threshold" (30 here). -/
def isSkillsMarker (l : String) : Bool :=
  hasSubList "skills".data (lowerData l) && decide (l.length < 30)

/-- Modelled from the spec: §4.2 experience/employment/work-history marker. -/
def isExperienceMarker (l : String) : Bool :=
  ["experience", "employment", "work history"].any
    (fun k => hasSubList k.data (lowerData l))

/-- Modelled from the spec: §4.2 education/academic/qualification marker. -/
def isEducationMarker (l : String) : Bool :=
  ["education", "academic", "qualification"].any
    (fun k => hasSubList k.data (lowerData l))

/-- A line consumed as a section header by some marker check. -/
def isMarker (l : String) : Bool :=
  isSummaryMarker l || isSkillsMarker l || isExperienceMarker l || isEducationMarker l

structure SegState where
  res : SegResult
  cur : Bucket
  idx : Nat

/-- Modelled from the spec: one step of §4.2's single left-to-right pass.
Marker checks run in priority order summary → skills → experience →
education; a matching line switches the current bucket and is consumed
(added to no bucket).  Otherwise, while the bucket is still `other`, one of
the first three non-blank lines goes to `header`; any other line joins the
current bucket.  `idx` counts the non-blank lines seen so far. -/
def segStep (st : SegState) (l : String) : SegState :=
  if isSummaryMarker l then { st with cur := .summary, idx := st.idx + 1 }
  else if isSkillsMarker l then { st with cur := .skills, idx := st.idx + 1 }
  else if isExperienceMarker l then { st with cur := .experience, idx := st.idx + 1 }
  else if isEducationMarker l then { st with cur := .education, idx := st.idx + 1 }
  else if st.cur = Bucket.other ∧ st.idx < 3 then
    { res := appendTo st.res .header l, cur := st.cur, idx := st.idx + 1 }
  else
    { res := appendTo st.res st.cur l, cur := st.cur, idx := st.idx + 1 }

/-- Modelled from the spec: `segment(lines)` of §4.2; the input is the
document's non-blank lines in order, the current bucket starts as `other`. -/
def segmentLines (lines : List String) : SegResult :=
  (lines.foldl segStep ⟨emptySeg, .other, 0⟩).res

/-- Sum of the line counts of all six buckets. -/
def totalCount (r : SegResult) : Nat :=
  r.header.length + r.summary.length + r.skills.length +
  r.experience.length + r.education.length + r.other.length

/-! ### Rule-based bullet rewrite, modelled from the spec (§4.7)

The rule-based RewriteEngine is not part of src/main.py (whose
`/ai/rewrite-bullet` endpoint delegates to the generative collaborator);
the definition below follows spec §4.7's `rewrite_bullet(line)`. -/

def DEFAULT_VERB : String := "Improved"

def bulletGlyph (c : Char) : Bool := c == '-' || c == '•' || c == '*' || c == ' '

/-- Modelled from the spec: §4.7 strip of leading bullet glyphs. -/
def stripGlyphs (l : List Char) : List Char := l.dropWhile bulletGlyph

/-- Modelled from the spec: §4.7 removal of a leading weak phrase
(case-insensitive), together with the space that followed it. -/
def stripWeakLead (l : List Char) : List Char :=
  match WEAK_PHRASES.find? (fun p => startsWithL (l.map lowerChar) p.data) with
  | some p => (l.drop p.length).dropWhile (fun c => c == ' ')
  | none => l

/-- Modelled from the spec: §4.7 — if the line does not already start with
a word from the action-verb list (case-insensitive), prepend the default
action verb. -/
def ensureVerb (l : List Char) : List Char :=
  if ACTION_VERBS.contains (String.mk ((firstWord l).map lowerChar)) then l
  else DEFAULT_VERB.data ++ ' ' :: l

/-- Modelled from the spec: §4.7 — if no quantified-achievement pattern is
present, append a fixed hint suggesting one be added. -/
def ensureHint (l : List Char) : List Char :=
  if hasDigitPair l then l else l ++ " (add a measurable result)".data

/-- Modelled from the spec: §4.7 `rewrite_bullet(line)` — strip leading
bullet glyphs; remove a leading weak phrase; prepend a default action verb
when the line does not already start with one; append a fixed hint when no
quantified-achievement pattern is present; re-emit with a standard bullet
marker.  Empty input yields empty output. -/
def rewrite_bullet (line : String) : String :=
  if line.data = [] then ""
  else String.mk ('-' :: ' ' ::
    ensureHint (ensureVerb (stripWeakLead (stripGlyphs line.data))))

/-! ### Concrete inputs used by counterexamples -/

/-- A single 26-word paragraph (no bullet glyph, no digits). -/
def cexLongLine : String :=
  "xx xx xx xx xx xx xx xx xx xx xx xx xx xx xx xx xx xx xx xx xx xx xx xx xx xx"

/-! ## Helper lemmas -/

theorem startsWithL_extend : ∀ (p ext : List Char), startsWithL (p ++ ext) p = true := by
  intro p
  induction p with
  | nil => intro ext; cases ext <;> rfl
  | cons a as ih => intro ext; simp [startsWithL, ih]

theorem appendTo_count (r : SegResult) (b : Bucket) (l : String) :
    totalCount (appendTo r b l) = totalCount r + 1 := by
  cases b <;> simp [appendTo, totalCount] <;> omega

theorem segStep_count (st : SegState) (l : String) :
    totalCount (segStep st l).res = totalCount st.res + (if isMarker l then 0 else 1) := by
  by_cases h1 : isSummaryMarker l
  · simp [segStep, isMarker, h1]
  · by_cases h2 : isSkillsMarker l
    · simp [segStep, isMarker, h1, h2]
    · by_cases h3 : isExperienceMarker l
      · simp [segStep, isMarker, h1, h2, h3]
      · by_cases h4 : isEducationMarker l
        · simp [segStep, isMarker, h1, h2, h3, h4]
        · simp only [segStep, isMarker, h1, h2, h3, h4, if_neg, Bool.false_eq_true,
            if_false, Bool.or_self, Bool.or_false]
          split <;> simp [appendTo_count]

theorem seg_fold_count (ls : List String) :
    ∀ st : SegState,
      totalCount (ls.foldl segStep st).res =
        totalCount st.res + (ls.filter (fun l => !isMarker l)).length := by
  induction ls with
  | nil => intro st; simp
  | cons l rest ih =>
    intro st
    rw [List.foldl_cons, ih, segStep_count]
    by_cases h : isMarker l
    · simp [List.filter_cons, h]
    · simp [List.filter_cons, h]
      omega

theorem str_ne_of_head (a b : String) (h : a.data.head? ≠ b.data.head?) : a ≠ b :=
  fun e => h (by rw [e])

theorem head?_append_lit (p s : String) (c : Char) (h : p.data.head? = some c) :
    ((p ++ s).data).head? = some c := by
  rw [String.data_append]
  cases hd : p.data with
  | nil => rw [hd] at h; cases h
  | cons x xs => rw [hd] at h; simpa using h

theorem pagesMsg_ne_capsMsg (t : String) : pagesMsg t ≠ capsMsg := by
  apply str_ne_of_head
  unfold pagesMsg
  rw [head?_append_lit "Resume is too long (" _ 'R' (by rfl)]
  decide

theorem weakMsgOf_ne_lenMsg (t : String) : weakMsgOf t ≠ lenMsg := by
  apply str_ne_of_head
  unfold weakMsgOf
  rw [head?_append_lit "Weak phrases detected: " _ 'W' (by rfl)]
  decide

theorem overMsgOf_ne_lenMsg (t : String) : overMsgOf t ≠ lenMsg := by
  apply str_ne_of_head
  unfold overMsgOf
  rw [head?_append_lit "Overused words: " _ 'O' (by rfl)]
  decide

theorem count_ite_single (c : Prop) [Decidable c] (m a : String) (h : m ≠ a) :
    (if c then [m] else []).count a = 0 := by
  split
  · simp [List.count_singleton, h]
  · rfl

theorem count_ite_self (c : Prop) [Decidable c] (a : String) :
    (if c then [a] else []).count a = if c then 1 else 0 := by
  split <;> simp

theorem hfIssues_count_caps : ∀ hf, (hfIssues hf).count capsMsg = 0 := by
  intro hf
  induction hf with
  | nil => rfl
  | cons p rest ih =>
    obtain ⟨h, f⟩ := p
    simp only [hfIssues, List.count_append, ih]
    rw [count_ite_single _ headerMsg _ (by decide), count_ite_single _ footerMsg _ (by decide)]

theorem fileIssues_count_caps (fk : FileKind) : (fileIssues fk).count capsMsg = 0 := by
  cases fk with
  | pdf p =>
    cases p with
    | failed => simp [fileIssues, List.count_singleton]; decide
    | parsed tf ic =>
      simp only [fileIssues, List.count_append]
      rw [count_ite_single _ pdfTableMsg _ (by decide),
        count_ite_single _ pdfImageMsg _ (by decide)]
  | docx d =>
    cases d with
    | failed => simp [fileIssues, List.count_singleton]; decide
    | parsed nt ns hf =>
      simp only [fileIssues, List.count_append, hfIssues_count_caps]
      rw [count_ite_single _ docxTableMsg _ (by decide),
        count_ite_single _ docxImageMsg _ (by decide)]
  | plain => rfl

theorem structure_score_bounds (t : String) :
    0 ≤ structure_score t ∧ structure_score t ≤ 30 := by
  unfold structure_score
  by_cases h1 : sectionSummaryFlag t <;> by_cases h2 : sectionSkillsFlag t <;>
    by_cases h3 : sectionExperienceFlag t <;> by_cases h4 : sectionEducationFlag t <;>
    simp [h1, h2, h3, h4]

theorem map_id_of {α : Type} (l : List α) (f : α → α) (h : ∀ c ∈ l, f c = c) :
    l.map f = l := by
  induction l with
  | nil => rfl
  | cons a rest ih =>
    rw [List.map_cons, h a (List.mem_cons_self a rest),
      ih (fun c hc => h c (List.mem_cons_of_mem a hc))]

theorem lowerChar_fix (c : Char) (h : isAlnumLower c = true ∨ isPyWs c = true) :
    lowerChar c = c := by
  unfold lowerChar
  rw [if_neg]
  simp only [isAlnumLower, isPyWs, decide_eq_true_eq] at h
  omega

theorem subStep_fix (c : Char) (h : isAlnumLower c = true ∨ isPyWs c = true) :
    subStep c = c := by
  unfold subStep
  rw [if_pos]
  rcases h with h | h <;> simp [h]

theorem subStep_out (c : Char) :
    isAlnumLower (subStep c) = true ∨ isPyWs (subStep c) = true := by
  unfold subStep
  split
  · rename_i h
    simpa using h
  · right; decide

theorem foldr_addChar_word (w : List Char) (head : List Char) (tail : List (List Char))
    (h : ∀ c ∈ w, isPyWs c = false) :
    w.foldr addChar (head :: tail) = (w ++ head) :: tail := by
  induction w with
  | nil => rfl
  | cons c w' ih =>
    have hc := h c (List.mem_cons_self c w')
    rw [List.foldr_cons, ih (fun d hd => h d (List.mem_cons_of_mem c hd))]
    unfold addChar
    rw [if_neg (by simp [hc])]
    rfl

theorem foldr_addChar_join : ∀ ws : List (List Char),
    (∀ w ∈ ws, w ≠ [] ∧ ∀ c ∈ w, isPyWs c = false) →
    (joinWs ws).foldr addChar [[]] = (if ws.isEmpty then [[]] else ws) := by
  intro ws
  induction ws with
  | nil => intro _; rfl
  | cons w rest ih =>
    intro h
    cases rest with
    | nil =>
      have hw := h w (List.mem_cons_self w [])
      show w.foldr addChar [[]] = _
      rw [foldr_addChar_word w [] [] hw.2]
      simp
    | cons v rest' =>
      have hv := h v (by simp)
      have hw := h w (by simp)
      have ih2 := ih (fun u hu => h u (List.mem_cons_of_mem w hu))
      show (w ++ ' ' :: joinWs (v :: rest')).foldr addChar [[]] = _
      rw [List.foldr_append, List.foldr_cons, ih2]
      simp only [List.isEmpty_cons, Bool.false_eq_true, if_false]
      have haddws : addChar ' ' (v :: rest') = [] :: v :: rest' := by
        unfold addChar
        rw [if_pos (by decide)]
        cases v with
        | nil => exact absurd rfl hv.1
        | cons x xs => rfl
      rw [haddws, foldr_addChar_word w [] (v :: rest') hw.2]
      simp

theorem pySplitWs_join (ws : List (List Char))
    (h : ∀ w ∈ ws, w ≠ [] ∧ ∀ c ∈ w, isPyWs c = false) :
    pySplitWs (joinWs ws) = ws := by
  unfold pySplitWs
  rw [foldr_addChar_join ws h]
  cases ws with
  | nil => rfl
  | cons w rest =>
    have hw := h w (by simp)
    simp only [List.isEmpty_cons, Bool.false_eq_true, if_false]
    cases w with
    | nil => exact absurd rfl hw.1
    | cons c w' => rfl

theorem foldr_addChar_sound : ∀ l : List Char,
    ∃ hd tl, l.foldr addChar [[]] = hd :: tl ∧
      (∀ c ∈ hd, isPyWs c = false ∧ c ∈ l) ∧
      (∀ w ∈ tl, w ≠ [] ∧ ∀ c ∈ w, isPyWs c = false ∧ c ∈ l) := by
  intro l
  induction l with
  | nil => exact ⟨[], [], rfl, by simp, by simp⟩
  | cons c l ih =>
    obtain ⟨hd, tl, heq, hh, ht⟩ := ih
    by_cases hc : isPyWs c = true
    · cases hd with
      | nil =>
        refine ⟨[], tl, ?_, by simp, ?_⟩
        · rw [List.foldr_cons, heq]
          unfold addChar
          rw [if_pos hc]
        · intro w hw
          obtain ⟨h1, h2⟩ := ht w hw
          exact ⟨h1, fun d hd2 => ⟨(h2 d hd2).1, List.mem_cons_of_mem c (h2 d hd2).2⟩⟩
      | cons x hd' =>
        refine ⟨[], (x :: hd') :: tl, ?_, by simp, ?_⟩
        · rw [List.foldr_cons, heq]
          unfold addChar
          rw [if_pos hc]
        · intro w hw
          rcases List.mem_cons.mp hw with rfl | hw2
          · exact ⟨by simp, fun d hd2 => ⟨(hh d hd2).1, List.mem_cons_of_mem c (hh d hd2).2⟩⟩
          · obtain ⟨h1, h2⟩ := ht w hw2
            exact ⟨h1, fun d hd2 => ⟨(h2 d hd2).1, List.mem_cons_of_mem c (h2 d hd2).2⟩⟩
    · refine ⟨c :: hd, tl, ?_, ?_, ?_⟩
      · rw [List.foldr_cons, heq]
        unfold addChar
        rw [if_neg hc]
      · intro d hd2
        rcases List.mem_cons.mp hd2 with rfl | hd3
        · exact ⟨by simpa using hc, List.mem_cons_self _ _⟩
        · exact ⟨(hh d hd3).1, List.mem_cons_of_mem c (hh d hd3).2⟩
      · intro w hw
        obtain ⟨h1, h2⟩ := ht w hw
        exact ⟨h1, fun d hd2 => ⟨(h2 d hd2).1, List.mem_cons_of_mem c (h2 d hd2).2⟩⟩

theorem pySplitWs_sound (l : List Char) :
    ∀ w ∈ pySplitWs l, w ≠ [] ∧ ∀ c ∈ w, isPyWs c = false ∧ c ∈ l := by
  obtain ⟨hd, tl, heq, hh, ht⟩ := foldr_addChar_sound l
  intro w hw
  unfold pySplitWs at hw
  rw [heq] at hw
  cases hd with
  | nil => exact ht w hw
  | cons x hd' =>
    have hw2 : w ∈ (x :: hd') :: tl := hw
    rcases List.mem_cons.mp hw2 with rfl | hw3
    · exact ⟨by simp, fun d hd2 => hh d hd2⟩
    · exact ht w hw3

theorem mem_joinWs : ∀ (ws : List (List Char)) (c : Char), c ∈ joinWs ws →
    c = ' ' ∨ ∃ w ∈ ws, c ∈ w := by
  intro ws
  induction ws with
  | nil => intro c hc; simp [joinWs] at hc
  | cons w rest ih =>
    intro c hc
    cases rest with
    | nil =>
      right
      exact ⟨w, by simp, hc⟩
    | cons v rest' =>
      have hc2 : c ∈ w ++ ' ' :: joinWs (v :: rest') := hc
      rcases List.mem_append.mp hc2 with h | h
      · right; exact ⟨w, by simp, h⟩
      · rcases List.mem_cons.mp h with rfl | h2
        · left; rfl
        · rcases ih c h2 with h3 | ⟨u, hu, hcu⟩
          · left; exact h3
          · right; exact ⟨u, List.mem_cons_of_mem w hu, hcu⟩

theorem normalize_join_eq (wsd : List (List Char))
    (h : ∀ w ∈ wsd, w ≠ [] ∧ (∀ c ∈ w, isPyWs c = false ∧ isAlnumLower c = true) ∧
      normKeep (String.mk w) = true) :
    normalize_text (String.mk (joinWs wsd)) = wsd.map String.mk := by
  have hchars : ∀ c ∈ joinWs wsd, isAlnumLower c = true ∨ isPyWs c = true := by
    intro c hc
    rcases mem_joinWs wsd c hc with rfl | ⟨w, hw, hcw⟩
    · right; decide
    · left; exact ((h w hw).2.1 c hcw).2
  have hfix1 : (joinWs wsd).map lowerChar = joinWs wsd :=
    map_id_of _ _ (fun c hc => lowerChar_fix c (hchars c hc))
  have hfix2 : (joinWs wsd).map subStep = joinWs wsd :=
    map_id_of _ _ (fun c hc => subStep_fix c (hchars c hc))
  show ((pySplitWs (((joinWs wsd).map lowerChar).map subStep)).map String.mk).filter
      normKeep = wsd.map String.mk
  rw [hfix1, hfix2,
    pySplitWs_join wsd (fun w hw => ⟨(h w hw).1, fun c hc => ((h w hw).2.1 c hc).1⟩)]
  apply List.filter_eq_self.mpr
  intro a ha
  obtain ⟨w, hw, rfl⟩ := List.mem_map.mp ha
  exact (h w hw).2.2

/-! ## Claim theorems -/

/-- Claim C2, counterexample: the spec-modelled segmenter consumes the
marker line `"skills"` into no bucket, so the sum of all bucket line
counts (0) differs from the number of non-blank input lines (1). -/
theorem segment_totality_cex :
    totalCount (segmentLines ["skills"]) ≠ (["skills"] : List String).length := by
  decide

/-- Claim C2, amended: every non-blank input line is either consumed as a
section-marker header line (entering no bucket) or assigned to exactly one
bucket; the sum of the line counts of all buckets equals the number of
non-blank non-marker input lines. -/
theorem segment_totality (lines : List String) :
    totalCount (segmentLines lines) = (lines.filter (fun l => !isMarker l)).length := by
  unfold segmentLines
  rw [seg_fold_count]
  simp [emptySeg, totalCount]

/-- Claim C4: with an empty job description the job token set produced by
`normalize_text` is empty, the keyword score is 0, and the matched-keywords
list is empty — a valid result, not an error. -/
theorem keyword_empty_job (t : String) :
    normalize_text "" = [] ∧
    keywordMatch (jobSetOf "") (resumeSetOf t) = (0, []) :=
  ⟨rfl, rfl⟩

/-- Claim C5: the structure score is the fixed-weight sum 5/10/10/5 over
the four boolean section-presence flags, and is never negative. -/
theorem structure_fixed_weights (t : String) :
    structure_score t =
      (if sectionSummaryFlag t then (5 : Int) else 0) +
      (if sectionSkillsFlag t then 10 else 0) +
      (if sectionExperienceFlag t then 10 else 0) +
      (if sectionEducationFlag t then 5 else 0) ∧
    0 ≤ structure_score t := by
  unfold structure_score
  by_cases h1 : sectionSummaryFlag t <;> by_cases h2 : sectionSkillsFlag t <;>
    by_cases h3 : sectionExperienceFlag t <;> by_cases h4 : sectionEducationFlag t <;>
    simp [h1, h2, h3, h4]

theorem firstWord_append_space (a b : List Char) :
    firstWord (a ++ ' ' :: b) = firstWord a := by
  unfold firstWord
  rw [List.takeWhile_append]
  split
  · rename_i h
    have h2 : a.takeWhile (fun c => !(c == ' ')) = a :=
      (List.takeWhile_sublist _).eq_of_length h
    rw [List.takeWhile_cons_of_neg (by simp)]
    simp [h2]
  · rfl

theorem ensureVerb_spec (l : List Char) :
    ACTION_VERBS.contains (String.mk ((firstWord (ensureVerb l)).map lowerChar)) = true := by
  unfold ensureVerb
  split
  · rename_i h; exact h
  · rw [firstWord_append_space]
    decide

theorem ensureHint_firstWord (l : List Char) :
    firstWord (ensureHint l) = firstWord l := by
  unfold ensureHint
  split
  · rfl
  · show firstWord (l ++ ' ' :: "(add a measurable result)".data) = firstWord l
    exact firstWord_append_space _ _

/-- Claim C8: for every non-empty input line, the spec-modelled rule-based
bullet rewrite yields a string that starts with the bullet marker `"- "`
followed by a token from the action-verb list (matched case-insensitively,
as the list holds lower-case verbs). -/
theorem rewrite_bullet_marker_verb (line : String) (h : line ≠ "") :
    (rewrite_bullet line).data.take 2 = ['-', ' '] ∧
    ACTION_VERBS.contains
      (String.mk ((firstWord ((rewrite_bullet line).data.drop 2)).map lowerChar)) = true := by
  have hd : line.data ≠ [] := fun e => h (String.ext e)
  unfold rewrite_bullet
  rw [if_neg hd]
  constructor
  · rfl
  · show ACTION_VERBS.contains
      (String.mk ((firstWord
        (ensureHint (ensureVerb (stripWeakLead (stripGlyphs line.data))))).map lowerChar)) = true
    rw [ensureHint_firstWord]
    exact ensureVerb_spec _

/-- Claim C8, witness: the theorem applied to the concrete non-empty line
`"- worked on the api"`. -/
theorem rewrite_bullet_marker_verb_witness :
    (rewrite_bullet "- worked on the api").data.take 2 = ['-', ' '] ∧
    ACTION_VERBS.contains
      (String.mk ((firstWord
        ((rewrite_bullet "- worked on the api").data.drop 2)).map lowerChar)) = true :=
  rewrite_bullet_marker_verb "- worked on the api" (by decide)

/-- Claim C10: `analyze_formatting` deducts 1 point and appends exactly one
"Too many ALL CAPS lines detected." issue iff some line of the text is
entirely upper-case (Python `str.isupper`) and longer than 5 characters;
texts with no such line get no such issue and no such deduction. -/
theorem formatting_caps_penalty (t : String) (fk : FileKind) :
    ((analyze_formatting t fk).2.count capsMsg = if fmtCaps t then 1 else 0) ∧
    (analyze_formatting t fk).1 =
      max 0 (min (20 - (fmtPenaltyExceptCaps t fk + (if fmtCaps t then 1 else 0))) 20) := by
  constructor
  · show ((if fmtShort t then [shortMsg] else []) ++ (if fmtCaps t then [capsMsg] else []) ++
      (if fmtNonAscii t then [nonAsciiMsg] else []) ++ (if fmtTab t then [tabMsg] else []) ++
      (if fmtSpaces t then [spacesMsg] else []) ++ (if fmtPages t then [pagesMsg t] else []) ++
      fileIssues fk).count capsMsg = _
    simp only [List.count_append]
    rw [count_ite_single _ shortMsg _ (by decide),
      count_ite_single _ nonAsciiMsg _ (by decide),
      count_ite_single _ tabMsg _ (by decide),
      count_ite_single _ spacesMsg _ (by decide),
      count_ite_single _ (pagesMsg t) _ (pagesMsg_ne_capsMsg t),
      fileIssues_count_caps, count_ite_self]
    omega
  · show max 0 (min (20 -
        ((if fmtShort t then 2 else 0) + (if fmtCaps t then 1 else 0) +
         (if fmtNonAscii t then 2 else 0) + (if fmtTab t then 3 else 0) +
         (if fmtSpaces t then 2 else 0) + (if fmtPages t then 3 else 0) +
         filePenalty fk)) 20) = _
    unfold fmtPenaltyExceptCaps
    omega

/-- Claim C1: every sub-score stays within its declared band — formatting
in [0,20], writing in [0,30], structure in [0,30], keyword in [0,50]
(it is a `Nat`, hence nonnegative) — and the overall ATS score computed in
`upload_resume` is in [0,100], for every text, extraction outcome and job
description. -/
theorem score_bands (t : String) (fk : FileKind) (jd : String) :
    (0 ≤ (analyze_formatting t fk).1 ∧ (analyze_formatting t fk).1 ≤ 20) ∧
    (0 ≤ (analyze_writing t).1 ∧ (analyze_writing t).1 ≤ 30) ∧
    (0 ≤ structure_score t ∧ structure_score t ≤ 30) ∧
    (keywordMatch (jobSetOf jd) (resumeSetOf t)).1 ≤ 50 ∧
    (0 ≤ ats_score t fk jd ∧ ats_score t fk jd ≤ 100) := by
  have hf : 0 ≤ (analyze_formatting t fk).1 ∧ (analyze_formatting t fk).1 ≤ 20 := by
    show 0 ≤ max 0 (min _ 20) ∧ max 0 (min _ 20) ≤ 20
    omega
  have hw : 0 ≤ (analyze_writing t).1 ∧ (analyze_writing t).1 ≤ 30 := by
    show 0 ≤ max 0 (min _ 30) ∧ max 0 (min _ 30) ≤ 30
    omega
  have hs := structure_score_bounds t
  have hk : (keywordMatch (jobSetOf jd) (resumeSetOf t)).1 ≤ 50 := by
    show (keywordLoop (resumeSetOf t) (jobSetOf jd)).1.min 50 ≤ 50
    exact Nat.min_le_right _ _
  refine ⟨hf, hw, hs, hk, ?_⟩
  unfold ats_score
  omega

/-- Claim C9, counterexample: `cexLongLine` is a single 26-word paragraph
(not a bullet line), which the claim says must trigger the length penalty
and its issue; `analyze_writing` appends no length issue for it at all
(its score 22 = 30 minus only the action-verb and achievement penalties). -/
theorem writing_length_cex :
    (wLines cexLongLine).length = 1 ∧ wBullets cexLongLine = [] ∧
    (pySplitWs cexLongLine.data).length = 26 ∧
    (analyze_writing cexLongLine).2.count lenMsg = 0 ∧
    (analyze_writing cexLongLine).1 = 22 := by
  decide

/-- Claim C9 (amended): `analyze_writing` applies the 2-point length
deduction and appends its issue exactly once iff some *bullet line*
(a stripped line starting with a bullet glyph) exceeds 25 words;
over-long non-bullet paragraphs are not checked.  The deduction respects
the floor at 0 and ceiling at 30. -/
theorem writing_length_bullets (t : String) :
    ((analyze_writing t).2.count lenMsg = if wLongBullet t then 1 else 0) ∧
    (analyze_writing t).1 =
      max 0 (min (30 - (wPenaltyExceptLength t + (if wLongBullet t then 2 else 0))) 30) ∧
    0 ≤ (analyze_writing t).1 ∧ (analyze_writing t).1 ≤ 30 := by
  refine ⟨?_, ?_, ?_, ?_⟩
  · show ((if wFewActions t then [actionMsg] else []) ++
      (if wNoAchievement t then [achMsg] else []) ++
      (if wWeak t then [weakMsgOf t] else []) ++
      (if wRepetition t then [overMsgOf t] else []) ++
      (if wPassive t then [passiveMsg] else []) ++
      (if wLongBullet t then [lenMsg] else [])).count lenMsg = _
    simp only [List.count_append]
    rw [count_ite_single _ actionMsg _ (by decide),
      count_ite_single _ achMsg _ (by decide),
      count_ite_single _ (weakMsgOf t) _ (weakMsgOf_ne_lenMsg t),
      count_ite_single _ (overMsgOf t) _ (overMsgOf_ne_lenMsg t),
      count_ite_single _ passiveMsg _ (by decide),
      count_ite_self]
    omega
  · show max 0 (min (30 -
        ((if wFewActions t then 4 else 0) + (if wNoAchievement t then 4 else 0) +
         (if wWeak t then 3 else 0) + (if wRepetition t then 3 else 0) +
         (if wPassive t then 3 else 0) + (if wLongBullet t then 2 else 0))) 30) = _
    unfold wPenaltyExceptLength
    omega
  · show 0 ≤ max 0 (min _ 30)
    omega
  · show max 0 (min _ 30) ≤ 30
    omega

/-- Taxonomy disjointness: no token is both a soft skill and a job title,
so the `elif` order of the code assigns exactly the weights the
specification lists per taxonomy. -/
theorem soft_not_title (w : String) (h : w ∈ SOFT_SKILLS) : w ∉ JOB_TITLES := by
  fin_cases h <;> decide

theorem keywordLoop_spec (rs : List String) : ∀ js : List String,
    (keywordLoop rs js).1 = ((js.filter (fun w => rs.contains w)).map specWeight).sum ∧
    (keywordLoop rs js).2 = js.filter (fun w => rs.contains w) := by
  intro js
  induction js with
  | nil => exact ⟨rfl, rfl⟩
  | cons w rest ih =>
    obtain ⟨ih1, ih2⟩ := ih
    by_cases hr : w ∈ rs
    · by_cases h1 : w ∈ HARD_SKILLS
      · simp [keywordLoop, h1, hr, List.filter_cons, specWeight, ih1, ih2]
        omega
      · by_cases h2 : w ∈ SOFT_SKILLS
        · have h3 : w ∉ JOB_TITLES := soft_not_title w h2
          simp [keywordLoop, h1, h2, h3, hr, List.filter_cons, specWeight, ih1, ih2]
          omega
        · by_cases h3 : w ∈ JOB_TITLES
          · simp [keywordLoop, h1, h2, h3, hr, List.filter_cons, specWeight, ih1, ih2]
            omega
          · simp [keywordLoop, h1, h2, h3, hr, List.filter_cons, specWeight, ih1, ih2]
            omega
    · simp [keywordLoop, hr, List.filter_cons, ih1, ih2]

/-- Claim C3: the keyword score adds, per token present in both the job
set and the résumé set, the taxonomy weight (hard-skill 4, job-title 3,
soft-skill 2, generic 1), capped at 50; the matched-terms sequence is the
job-set enumeration restricted to matched tokens (hence ordered) and
contains no duplicates. -/
theorem keyword_weighted_cap (jd : String) (resumeSet : List String) :
    (keywordMatch (jobSetOf jd) resumeSet).1 =
      min ((((jobSetOf jd).filter (fun w => resumeSet.contains w)).map specWeight).sum) 50 ∧
    (keywordMatch (jobSetOf jd) resumeSet).2 =
      (jobSetOf jd).filter (fun w => resumeSet.contains w) ∧
    (keywordMatch (jobSetOf jd) resumeSet).2.Nodup := by
  obtain ⟨h1, h2⟩ := keywordLoop_spec resumeSet (jobSetOf jd)
  refine ⟨?_, ?_, ?_⟩
  · show (keywordLoop resumeSet (jobSetOf jd)).1.min 50 = _
    rw [h1]
  · exact h2
  · show (keywordLoop resumeSet (jobSetOf jd)).2.Nodup
    rw [h2]
    exact (List.nodup_dedup _).filter _

/-- Claim C6: `normalize_text` is idempotent up to re-joining — re-running
it on the string obtained by joining its own output with single spaces
returns the same token sequence. -/
theorem normalize_idempotent (t : String) :
    normalize_text (joinTokens (normalize_text t)) = normalize_text t := by
  have hsplit : normalize_text t =
      ((pySplitWs ((t.data.map lowerChar).map subStep)).filter
        (fun w => normKeep (String.mk w))).map String.mk := by
    unfold normalize_text
    rw [List.filter_map]
    rfl
  have hprops : ∀ w ∈ (pySplitWs ((t.data.map lowerChar).map subStep)).filter
      (fun w => normKeep (String.mk w)),
      w ≠ [] ∧ (∀ c ∈ w, isPyWs c = false ∧ isAlnumLower c = true) ∧
        normKeep (String.mk w) = true := by
    intro w hw
    obtain ⟨hw1, hw2⟩ := List.mem_filter.mp hw
    obtain ⟨hne, hchars⟩ := pySplitWs_sound _ w hw1
    refine ⟨hne, ?_, hw2⟩
    intro c hc
    obtain ⟨hnws, hmem⟩ := hchars c hc
    refine ⟨hnws, ?_⟩
    obtain ⟨d, _, rfl⟩ := List.mem_map.mp hmem
    rcases subStep_out d with h1 | h1
    · exact h1
    · exact absurd h1 (by simp [hnws])
  have hjt : joinTokens (normalize_text t) =
      String.mk (joinWs ((pySplitWs ((t.data.map lowerChar).map subStep)).filter
        (fun w => normKeep (String.mk w)))) := by
    rw [hsplit]
    unfold joinTokens
    rw [List.map_map, map_id_of _ (String.data ∘ String.mk) (fun w _ => rfl)]
  rw [hjt, normalize_join_eq _ hprops, ← hsplit]

/-- Claim C7: `gemini_generate` is a total function into strings — a
successful collaborator response is returned as-is, and any raised fault is
converted into a string beginning with the fixed marker `"AI Error:"`. -/
theorem gemini_error_marker (t e : String) :
    gemini_generate (Except.ok t) = t ∧
    gemini_generate (Except.error e) = "AI Error: " ++ e ∧
    startsWithL (gemini_generate (Except.error e)).data "AI Error:".data = true := by
  refine ⟨rfl, rfl, ?_⟩
  show startsWithL ("AI Error:".data ++ (' ' :: e.data)) "AI Error:".data = true
  exact startsWithL_extend _ _
